import Mathlib

/-!
# Verification of the data aggregation core of the
# Interactive Data Visualization Dashboard

This file gives a shallow embedding of the data-processing pipeline of the
dashboard (type coercion, field classification, field-mapping validation,
and the five per-chart aggregation strategies), translated from the
JavaScript sources (`js/dataLoader.js`, `js/pieChart.js`, `js/barChart.js`,
the heatmap component, `Final Project/js/utils.js` (LineChart),
`Final Project/js/scatterPlot.js`), together with theorems settling the
specification claims about that pipeline.

JavaScript numbers are modelled by exact rationals `ℚ`, with `NaN`
modelled explicitly (either as the `Value.vnan` cell or as `none` in
`Option ℚ` results of coercions).  String-to-number coercion is modelled
on the decimal fragment (optional sign, digits, optional fraction digits),
which covers every value the claims exercise.
-/

namespace Dashboard

/-- A JavaScript runtime value as it appears in a dataset cell:
`null`, `undefined`, a (finite) number, `NaN`, a string, or a `Date`
(represented by an integer encoding of the parsed calendar date). -/
inductive Value where
  | vnull : Value
  | vundef : Value
  | vnum : ℚ → Value
  | vnan : Value
  | vstr : String → Value
  | vdate : ℤ → Value
deriving DecidableEq, Repr

open Value

/-- A record (one dataset row): a JavaScript object, modelled as an
association list from field name to cell value, in key-insertion order. -/
abbrev Rec := List (String × Value)

/-- Property access `d[field]`: the first binding for the key, or
`undefined` when the key is absent. -/
def getF (d : Rec) (k : String) : Value :=
  match d.find? (fun p => p.1 = k) with
  | some p => p.2
  | none => vundef

/-- JavaScript truthiness of a value (`if (v)`, `v || w`):
`null`, `undefined`, `0`, `NaN` and `""` are falsy, everything else
(including every `Date` object) is truthy. -/
def truthy : Value → Bool
  | vnull => false
  | vundef => false
  | vnum q => q ≠ 0
  | vnan => false
  | vstr s => s ≠ ""
  | vdate _ => true

/-- JavaScript `v || w`. -/
def jsOr (v w : Value) : Value := if truthy v then v else w

/-! ## String-to-number coercion (decimal fragment)

`Number(s)` and `parseFloat(s)` are modelled for strings consisting of
optional whitespace, an optional sign, decimal digits and an optional
fractional part.  This is the fragment every claim exercises; exponent
forms, hex literals and `Infinity` are outside the embedding. -/

/-- Whitespace characters recognised by JS `trim` / numeric coercion
(space, tab, newline, carriage return — the fragment used here). -/
def isWs (c : Char) : Bool := c = ' ' ∨ c = '\t' ∨ c = '\n' ∨ c = '\r'

/-- ASCII decimal digit test. -/
def isDig (c : Char) : Bool := '0' ≤ c ∧ c ≤ '9'

/-- Numeric value of a digit character. -/
def digVal (c : Char) : ℕ := c.toNat - '0'.toNat

/-- Value of a digit list read as a base-10 natural number. -/
def natOfDigits (l : List Char) : ℕ :=
  l.foldl (fun acc c => 10 * acc + digVal c) 0

/-- Read an optional leading sign, returning the sign factor and the
rest. -/
def parseSign : List Char → ℚ × List Char
  | [] => (1, [])
  | c :: t => if c = '-' then (-1, t) else if c = '+' then (1, t) else (1, c :: t)

/-- Read the optional fraction part (`.` then digits) from the rest
after the integer digits, returning the fraction digits and the
unconsumed rest. -/
def parseFrac : List Char → List Char × List Char
  | '.' :: t => (t.takeWhile isDig, t.dropWhile isDig)
  | l2 => ([], l2)

/-- Read an unsigned decimal magnitude (digits, optional `.` and
fraction digits) from the front of the list; `none` when not even one
digit could be read. -/
def parseMag (sg : ℚ) (l1 : List Char) : Option (ℚ × List Char) :=
  if l1.takeWhile isDig = [] ∧ (parseFrac (l1.dropWhile isDig)).1 = [] then
    none
  else
    some (sg * ((natOfDigits (l1.takeWhile isDig) : ℚ) +
        (natOfDigits ((parseFrac (l1.dropWhile isDig)).1) : ℚ) /
          (10 : ℚ) ^ ((parseFrac (l1.dropWhile isDig)).1).length),
      (parseFrac (l1.dropWhile isDig)).2)

/-- Parse a decimal literal (optional sign, integer digits, optional
`.` and fraction digits) from the front of a character list, returning
the parsed rational and the unconsumed rest; `none` when not even one
digit could be read. -/
def parseDec (l : List Char) : Option (ℚ × List Char) :=
  parseMag (parseSign l).1 (parseSign l).2

/-- Strip leading whitespace from a character list. -/
def trimL (l : List Char) : List Char := l.dropWhile isWs

/-- Strip leading and trailing whitespace (JS `String.prototype.trim`). -/
def trimB (l : List Char) : List Char :=
  ((trimL l).reverse.dropWhile isWs).reverse

/-- JS `String.prototype.trim` on a Lean string. -/
def jsTrim (s : String) : String := String.mk (trimB s.data)

/-- JS `Number(s)` on the decimal fragment: whitespace-only strings give
`0`; otherwise the whole trimmed string must be a decimal literal;
`none` models `NaN`. -/
def jsNumberOfString (s : String) : Option ℚ :=
  let t := trimB s.data
  if t = [] then some 0
  else
    match parseDec t with
    | some (q, []) => some q
    | _ => none

/-- JS `parseFloat(s)` on the decimal fragment: leading whitespace is
skipped, the longest decimal-literal front is read, the rest is ignored;
`none` models `NaN`. -/
def jsParseFloat (s : String) : Option ℚ :=
  match parseDec (trimL s.data) with
  | some (q, _) => some q
  | none => none

/-- JS numeric coercion `+v` / `Number(v)` of a cell value; `none`
models `NaN`.  `null` coerces to `0`, `undefined` to `NaN`, a `Date` to
its encoded time. -/
def jsToNumber : Value → Option ℚ
  | vnull => some 0
  | vundef => none
  | vnum q => some q
  | vnan => none
  | vstr s => jsNumberOfString s
  | vdate t => some (t : ℚ)

/-- The coercing global `isNaN(v)`. -/
def jsIsNaN (v : Value) : Bool := (jsToNumber v).isNone

/-- `parseFloat(v)` on a cell value: the value is first converted to a
string; numbers parse back to themselves, numeric coercion of a string
uses `jsParseFloat`, and a `Date`'s string form (weekday-first) yields
`NaN`, as do `null`/`undefined`/`NaN`. -/
def jsParseFloatV : Value → Option ℚ
  | vnum q => some q
  | vstr s => jsParseFloat s
  | _ => none

/-! ## Date strings and the type coercer
(`DataLoader.loadUserCSV` row conversion and `DataLoader.isDateString`,
`js/dataLoader.js`) -/

/-- Two-digit number from its digit characters. -/
def digit2 (a b : Char) : ℕ := 10 * digVal a + digVal b

/-- Four-digit number from its digit characters. -/
def digit4 (a b c d : Char) : ℕ :=
  1000 * digVal a + 100 * digVal b + 10 * digVal c + digVal d

/-- Decompose a string matching one of the four date patterns
(`YYYY-MM-DD`, `MM/DD/YYYY`, `MM-DD-YYYY`, `YYYY/MM/DD`) into
(year, month, day, isIso); `none` when no pattern matches.  The first
pattern is parsed by the ISO path of `Date.parse`, the other three by
the legacy path. -/
def dateComponents (s : String) : Option (ℕ × ℕ × ℕ × Bool) :=
  match s.data with
  | [a, b, c, d, '-', e, f, '-', g, h] =>
    if isDig a && isDig b && isDig c && isDig d &&
        isDig e && isDig f && isDig g && isDig h
    then some (digit4 a b c d, digit2 e f, digit2 g h, true) else none
  | [a, b, '/', c, d, '/', e, f, g, h] =>
    if isDig a && isDig b && isDig c && isDig d &&
        isDig e && isDig f && isDig g && isDig h
    then some (digit4 e f g h, digit2 a b, digit2 c d, false) else none
  | [a, b, '-', c, d, '-', e, f, g, h] =>
    if isDig a && isDig b && isDig c && isDig d &&
        isDig e && isDig f && isDig g && isDig h
    then some (digit4 e f g h, digit2 a b, digit2 c d, false) else none
  | [a, b, c, d, '/', e, f, '/', g, h] =>
    if isDig a && isDig b && isDig c && isDig d &&
        isDig e && isDig f && isDig g && isDig h
    then some (digit4 a b c d, digit2 e f, digit2 g h, false) else none
  | _ => none

/-- Gregorian leap-year test. -/
def isLeap (y : ℕ) : Bool := (y % 4 = 0 && y % 100 ≠ 0) || y % 400 = 0

/-- Days in a month of a given year. -/
def daysInMonth (y m : ℕ) : ℕ :=
  if m = 2 then (if isLeap y then 29 else 28)
  else if m = 4 ∨ m = 6 ∨ m = 9 ∨ m = 11 then 30 else 31

/-- Whether the parsed components form a parseable calendar date:
the ISO path requires the day to fit the month, the legacy path accepts
month 1–12 and day 1–31 (later rolling over), per V8 `Date.parse`. -/
def dateValid (y m d : ℕ) (iso : Bool) : Bool :=
  if iso then 1 ≤ m && m ≤ 12 && 1 ≤ d && d ≤ daysInMonth y m
  else 1 ≤ m && m ≤ 12 && 1 ≤ d && d ≤ 31

/-- Order-preserving integer encoding of a calendar date; the `Date`
cells produced by the coercer carry this encoding (the claims never
inspect absolute epoch times). -/
def encodeDate (y m d : ℕ) : ℤ := (y : ℤ) * 10000 + (m : ℤ) * 100 + d

/-- `Date.parse(s)` restricted to the four date patterns of
`isDateString`: `none` models `NaN` (no pattern match or an invalid
calendar date). -/
def jsDateParse (s : String) : Option ℤ :=
  match dateComponents s with
  | some (y, m, d, iso) =>
    if dateValid y m d iso then some (encodeDate y m d) else none
  | none => none

/-- `DataLoader.isDateString(v)`: `v` is a string matching one of the
four date patterns whose `Date.parse` is not `NaN` (non-strings give
`false`). -/
def isDateString : Value → Bool
  | vstr s => (dateComponents s).isSome && (jsDateParse s).isSome
  | _ => false

/-- The type coercion applied to each raw CSV cell in
`DataLoader.loadUserCSV`: falsy or whitespace-only raw values give
`null`; then a full numeric parse (`!isNaN(value) && !isNaN(parseFloat(value))`)
gives the `parseFloat` number; then a date-string gives a `Date`; else
the trimmed string. -/
def coerce (v : Option String) : Value :=
  match v with
  | none => vnull
  | some s =>
    if s = "" then vnull
    else if jsTrim s = "" then vnull
    else if (jsNumberOfString s).isSome && (jsParseFloat s).isSome then
      vnum ((jsParseFloat s).getD 0)
    else if isDateString (vstr s) then vdate ((jsDateParse s).getD 0)
    else vstr (jsTrim s)

/-- Whether a cell is a `Date` instance. -/
def Value.isDate : Value → Bool
  | vdate _ => true
  | _ => false

/-- `d3.sum(list, accessor)`: sums the numeric coercions of the accessor
results, skipping values that coerce to `NaN`. -/
def d3sum {α : Type} (l : List α) (f : α → Value) : ℚ :=
  (l.map (fun a => (jsToNumber (f a)).getD 0)).sum

/-! ## Grouping and sorting -/

/-- Keep the first occurrence of every element, in first-seen order
(the key order of a JS `Map`/`Set` built by repeated insertion). -/
def dedupFirst {α : Type} [DecidableEq α] : List α → List α
  | [] => []
  | a :: rest => a :: (dedupFirst rest).filter (fun b => b ≠ a)

/-- `d3.group(list, key)`: the distinct keys in first-seen order, each
paired with the sublist of elements having that key, in input order. -/
def d3group {α β : Type} [DecidableEq β] (f : α → β) (l : List α) :
    List (β × List α) :=
  (dedupFirst (l.map f)).map (fun b => (b, l.filter (fun a => f a = b)))

/-- Insert `a` into `l` before the first element `b` with `le a b`
(stable insertion step). -/
def insertStable {α : Type} (le : α → α → Bool) (a : α) : List α → List α
  | [] => [a]
  | b :: l => if le a b then a :: b :: l else b :: insertStable le a l

/-- Stable sort by the boolean relation `le` (the result of JS
`Array.prototype.sort` with a consistent comparator: elements the
comparator ties keep their original relative order). -/
def ssort {α : Type} (le : α → α → Bool) : List α → List α
  | [] => []
  | a :: l => insertStable le a (ssort le l)

/-! ## Pie chart: categorical-sum aggregation with top-15 collapse
(`PieChart.processData`, `js/pieChart.js`) -/

/-- One aggregated output row of the pie chart. -/
structure PieRow where
  category : Value
  value : ℚ
  count : ℕ
  percentage : ℚ
  originalData : List Rec
deriving DecidableEq, Repr

/-- The pie sort order: the comparator `(a, b) => b.value - a.value`
puts `a` no later than `b` exactly when `b.value ≤ a.value`. -/
def pieLe (a b : PieRow) : Bool := b.value ≤ a.value

/-- The grouped rows before percentages: group records by the category
field, summing the (`|| 0`-defaulted) value field and counting records. -/
def pieGroups (catF valF : String) (data : List Rec) : List PieRow :=
  (d3group (fun d => getF d catF) data).map (fun p =>
    { category := p.1
      value := d3sum p.2 (fun d => jsOr (getF d valF) (vnum 0))
      count := p.2.length
      percentage := 0
      originalData := p.2 })

/-- `total`: the sum of all group sums. -/
def pieTotal (catF valF : String) (data : List Rec) : ℚ :=
  ((pieGroups catF valF data).map (fun r => r.value)).sum

/-- The rows with percentages filled in
(`total > 0 ? value / total * 100 : 0`). -/
def pieWithPct (catF valF : String) (data : List Rec) : List PieRow :=
  (pieGroups catF valF data).map (fun r =>
    { r with percentage :=
        if 0 < pieTotal catF valF data
        then r.value / pieTotal catF valF data * 100 else 0 })

/-- The rows sorted descending by value (stable, as JS `sort`). -/
def pieSorted (catF valF : String) (data : List Rec) : List PieRow :=
  ssort pieLe (pieWithPct catF valF data)

/-- The synthetic `Others` row folding the rows `l`. -/
def mkOthers (total : ℚ) (l : List PieRow) : PieRow :=
  { category := vstr "Others"
    value := (l.map (fun r => r.value)).sum
    count := (l.map (fun r => r.count)).sum
    percentage :=
      if 0 < total then (l.map (fun r => r.value)).sum / total * 100 else 0
    originalData := (l.map (fun r => r.originalData)).flatten }

/-- `PieChart.processData`: empty data gives an empty result; otherwise
group, fill percentages, sort descending, and when more than 15 rows
remain keep the top 14 and fold the rest into an `Others` row. -/
def pieProcess (catF valF : String) (data : List Rec) : List PieRow :=
  if data = [] then []
  else if 15 < (pieSorted catF valF data).length then
    (pieSorted catF valF data).take 14 ++
      [mkOthers (pieTotal catF valF data) ((pieSorted catF valF data).drop 14)]
  else pieSorted catF valF data

/-! ## Bar chart: categorical-sum aggregation
(`BarChart.processData`, `js/barChart.js`).  The bar rows carry the
grouped sum and count but no percentage field; no top-N collapse. -/

/-- One aggregated output row of the bar chart. -/
structure BarRow where
  x : Value
  y : ℚ
  count : ℕ
  originalData : List Rec
deriving DecidableEq, Repr

/-- `BarChart.processData`: group by the x field, sum the y field,
sort descending by the summed value. -/
def barProcess (xF yF : String) (data : List Rec) : List BarRow :=
  if data = [] then []
  else
    ssort (fun a b => b.y ≤ a.y)
      ((d3group (fun d => getF d xF) data).map (fun p =>
        { x := p.1
          y := d3sum p.2 (fun d => jsOr (getF d yF) (vnum 0))
          count := p.2.length
          originalData := p.2 }))

/-! ## Scatter plot: raw-pair filter and linear regression
(`ScatterPlot.processData`, `ScatterPlot.calculateLinearRegression`,
`Final Project/js/scatterPlot.js`) -/

/-- Whether a cell is an actual JS number (`typeof v === "number"`,
excluding the separately-modelled `NaN`). -/
def Value.isNumber : Value → Bool
  | vnum _ => true
  | _ => false

/-- The scatter filter predicate: both coordinates non-`null`,
non-`undefined`, and not `NaN` under the coercing global `isNaN`. -/
def scatterKeep (xF yF : String) (d : Rec) : Bool :=
  getF d xF ≠ vnull && getF d xF ≠ vundef && !jsIsNaN (getF d xF) &&
  (getF d yF ≠ vnull && getF d yF ≠ vundef && !jsIsNaN (getF d yF))

/-- `ScatterPlot.processData`: pass through exactly the records kept by
the filter predicate; no grouping, no aggregation. -/
def scatterProcess (xF yF : String) (data : List Rec) : List Rec :=
  if data = [] then [] else data.filter (scatterKeep xF yF)

/-- A regression result (`{slope, intercept, rSquared}`). -/
structure Regression where
  slope : ℚ
  intercept : ℚ
  rSquared : ℚ
deriving DecidableEq, Repr

/-- `ScatterPlot.calculateLinearRegression`: ordinary least squares on
paired value lists; fewer than 2 points give `null`. -/
def calculateLinearRegression (xValues yValues : List ℚ) :
    Option Regression :=
  if xValues.length < 2 then none
  else
    let n : ℚ := xValues.length
    let sumX := xValues.sum
    let sumY := yValues.sum
    let sumXY := (List.zipWith (fun x y => x * y) xValues yValues).sum
    let sumXX := (xValues.map (fun x => x * x)).sum
    let slope := (n * sumXY - sumX * sumY) / (n * sumXX - sumX * sumX)
    let intercept := (sumY - slope * sumX) / n
    let yMean := sumY / n
    let ssTotal := (yValues.map (fun y => (y - yMean) ^ 2)).sum
    let ssResidual :=
      (List.zipWith (fun x y => (y - (slope * x + intercept)) ^ 2)
        xValues yValues).sum
    some { slope := slope, intercept := intercept,
           rSquared := 1 - ssResidual / ssTotal }

/-! ## Field classification and mapping validation
(`DataLoader.getColumnInfo`, `DataLoader.getFieldSuggestions`,
`DataLoader.validateFieldMapping`, `js/dataLoader.js`) -/

/-- A field kind. -/
inductive Kind where
  | numeric : Kind
  | date : Kind
  | categorical : Kind
deriving DecidableEq, Repr

/-- The non-null, non-undefined values of one column, in record order
(`data.map(d => d[col]).filter(v => v !== null && v !== undefined)`). -/
def columnValues (data : List Rec) (col : String) : List Value :=
  (data.map (fun d => getF d col)).filter
    (fun v => v ≠ vnull && v ≠ vundef)

/-- The first sampled value of a column (`values[0]`, `none` models
`undefined`). -/
def sampleValue (data : List Rec) (col : String) : Option Value :=
  (columnValues data col).head?

/-- The kind assigned by `getColumnInfo`: `numeric` when the first
sample is a number (including `NaN`, `typeof NaN === "number"`), `date`
only when it is a `Date` instance, else `categorical`. -/
def colInfoKind (vs : List Value) : Kind :=
  match vs.head? with
  | some (vnum _) => Kind.numeric
  | some vnan => Kind.numeric
  | some (vdate _) => Kind.date
  | _ => Kind.categorical

/-- The kind assigned by `getFieldSuggestions`: as `colInfoKind`, but a
first sample that is a date-string also counts as `date`. -/
def sugKind (vs : List Value) : Kind :=
  match vs.head? with
  | some (vnum _) => Kind.numeric
  | some vnan => Kind.numeric
  | some (vdate _) => Kind.date
  | some (vstr s) =>
    if isDateString (vstr s) then Kind.date else Kind.categorical
  | _ => Kind.categorical

/-- `getColumnInfo`, restricted to the per-column `type` field (the
`uniqueCount`, `sampleValues` and `stats` fields are not needed by any
claim and are omitted); empty data gives the empty mapping. -/
def getColumnInfoKinds (data : List Rec) : List (String × Kind) :=
  match data with
  | [] => []
  | d0 :: _ =>
    (d0.map Prod.fst).map
      (fun col => (col, colInfoKind (columnValues data col)))

/-- The field-suggestion buckets. -/
structure Suggestions where
  numeric : List String
  categorical : List String
  date : List String
  all : List String
deriving DecidableEq, Repr

/-- `getFieldSuggestions`: classify the columns of the first record into
kind buckets, preserving column order.  On empty data the source
returns an empty object (whose later use in validation would throw);
the embedding returns empty buckets and the validation claims assume a
nonempty dataset. -/
def getFieldSuggestions (data : List Rec) : Suggestions :=
  match data with
  | [] => ⟨[], [], [], []⟩
  | d0 :: _ =>
    { numeric := (d0.map Prod.fst).filter
        (fun c => sugKind (columnValues data c) = Kind.numeric)
      categorical := (d0.map Prod.fst).filter
        (fun c => sugKind (columnValues data c) = Kind.categorical)
      date := (d0.map Prod.fst).filter
        (fun c => sugKind (columnValues data c) = Kind.date)
      all := d0.map Prod.fst }

/-- A chart-role field mapping (roles not used by a chart type stay
unmapped). -/
structure Mapping where
  x : Option String := none
  y : Option String := none
  size : Option String := none
  color : Option String := none
  label : Option String := none
  value : Option String := none
deriving DecidableEq, Repr

/-- The chart types of the validation switch; `other` is any
unrecognised type (the switch default performs no checks). -/
inductive ChartType where
  | bar : ChartType
  | line : ChartType
  | scatter : ChartType
  | pie : ChartType
  | heatmap : ChartType
  | other : ChartType
deriving DecidableEq, Repr

/-- The chart-type name interpolated into validation messages. -/
def ChartType.name : ChartType → String
  | bar => "bar"
  | line => "line"
  | scatter => "scatter"
  | pie => "pie"
  | heatmap => "heatmap"
  | other => "other"

/-- The `checkField` closure of `validateFieldMapping`: returns the
errors and warnings it pushes for one role. -/
def checkField (sug : Suggestions) (ctName : String) (field : Option String)
    (requiredTypes : List String) (fieldName : String) :
    List String × List String :=
  match field with
  | none => ([fieldName ++ " field is required for " ++ ctName ++ " chart"], [])
  | some f =>
    if sug.all.contains f = false then
      (["Field \x27" ++ f ++ "\x27 does not exist in dataset"], [])
    else
      if requiredTypes.contains
          (if sug.numeric.contains f then "numeric"
           else if sug.date.contains f then "date"
           else "categorical") = false then
        ([], ["Field \x27" ++ f ++ "\x27 is " ++
          (if sug.numeric.contains f then "numeric"
           else if sug.date.contains f then "date"
           else "categorical") ++ ", but " ++
          String.intercalate " or " requiredTypes ++
          " is recommended for " ++ fieldName])
      else ([], [])

/-- The `checkField` calls of the validation switch, per chart type:
role selector, recommended kinds, role label. -/
def roleChecks (ct : ChartType) :
    List ((Mapping → Option String) × List String × String) :=
  match ct with
  | .bar => [(Mapping.x, ["categorical"], "X-axis"),
             (Mapping.y, ["numeric"], "Y-axis")]
  | .line => [(Mapping.x, ["date", "numeric"], "X-axis"),
              (Mapping.y, ["numeric"], "Y-axis")]
  | .scatter => [(Mapping.x, ["numeric"], "X-axis"),
                 (Mapping.y, ["numeric"], "Y-axis")]
  | .pie => [(Mapping.label, ["categorical"], "Label"),
             (Mapping.value, ["numeric"], "Value")]
  | .heatmap => [(Mapping.x, ["categorical"], "X-axis"),
                 (Mapping.y, ["categorical"], "Y-axis"),
                 (Mapping.value, ["numeric"], "Value")]
  | .other => []

/-- The validation result (`suggestions` from `getSmartFieldMapping` is
not claim-relevant and omitted). -/
structure ValidationResult where
  isValid : Bool
  errors : List String
  warnings : List String
deriving DecidableEq, Repr

/-- `validateFieldMapping`: run the chart type's role checks, collect
errors and warnings in order; valid exactly when no errors. -/
def validateFieldMapping (ct : ChartType) (m : Mapping) (data : List Rec) :
    ValidationResult :=
  { isValid := ((roleChecks ct).map (fun c =>
      (checkField (getFieldSuggestions data) (ChartType.name ct) (c.1 m)
        c.2.1 c.2.2).1)).flatten.isEmpty
    errors := ((roleChecks ct).map (fun c =>
      (checkField (getFieldSuggestions data) (ChartType.name ct) (c.1 m)
        c.2.1 c.2.2).1)).flatten
    warnings := ((roleChecks ct).map (fun c =>
      (checkField (getFieldSuggestions data) (ChartType.name ct) (c.1 m)
        c.2.1 c.2.2).2)).flatten }

/-! ## Line chart: time-series-group aggregation
(`LineChart.processData`, `Final Project/js/utils.js`) -/

/-- `new Date(v)` as a sortable time key; `none` models an invalid date
(whose comparator difference is `NaN`, which `sort` treats as 0).
Numbers are epoch offsets, `Date` cells keep their encoding, strings go
through the pattern-restricted date parser, `null` is epoch 0,
`undefined` and `NaN` give an invalid date.  (The claims never compare
a numeric x with a date x, so the two scales never mix.) -/
def jsNewDateTime : Value → Option ℚ
  | vnull => some 0
  | vundef => none
  | vnum q => some q
  | vnan => none
  | vstr s => (jsDateParse s).map (fun t => (t : ℚ))
  | vdate t => some ((t : ℚ))

/-- The line-chart sort order, from the comparator
`(a, b) => new Date(a[xField]) - new Date(b[xField])`; an invalid date
on either side makes the comparator `NaN`, which `sort` treats as a
tie. -/
def lineLe (xF : String) (a b : Rec) : Bool :=
  match jsNewDateTime (getF a xF), jsNewDateTime (getF b xF) with
  | some x, some y => x ≤ y
  | _, _ => true

/-- The line-chart filter predicate
(`d[xField] && d[yField] !== null && d[yField] !== undefined`):
the x value must be truthy, the y value non-null and non-undefined. -/
def lineKeep (xF yF : String) (d : Rec) : Bool :=
  truthy (getF d xF) && (getF d yF ≠ vnull && getF d yF ≠ vundef)

/-- `LineChart.processData`: filter, sort ascending by x as a date,
then partition by the group field when one is mapped (each partition
re-sorted), else one `default` partition. -/
def lineProcess (xF yF : String) (gF : Option String) (data : List Rec) :
    List (Value × List Rec) :=
  if data = [] then []
  else
    match gF with
    | some g =>
      (d3group (fun d => getF d g)
        (ssort (lineLe xF) (data.filter (lineKeep xF yF)))).map
          (fun p => (p.1, ssort (lineLe xF) p.2))
    | none =>
      [(vstr "default", ssort (lineLe xF) (data.filter (lineKeep xF yF)))]

/-! ## Heatmap: matrix-fill aggregation
(`Heatmap.processData`, the unnamed heatmap component source) -/

/-- The string form of a cell as interpolated into the template literal
`${xVal}|${yVal}`: strings are themselves, integer numbers print as in
JS; non-integer rationals and the remaining shapes get deterministic
encodings (the claims only exercise string and integer categories). -/
def valueToString : Value → String
  | vnull => "null"
  | vundef => "undefined"
  | vnan => "NaN"
  | vnum q =>
    if q.den = 1 then toString q.num
    else toString q.num ++ "/" ++ toString q.den
  | vstr s => s
  | vdate t => "Date(" ++ toString t ++ ")"

/-- The matrix key `${xVal}|${yVal}`. -/
def heatKey (x y : Value) : String :=
  valueToString x ++ "|" ++ valueToString y

/-- The guard of the heatmap accumulation loop: x and y non-null and
non-undefined, value non-null, non-undefined and not `NaN` under the
coercing `isNaN`. -/
def heatValid (xF yF vF : String) (d : Rec) : Bool :=
  getF d xF ≠ vnull && getF d xF ≠ vundef &&
  (getF d yF ≠ vnull && getF d yF ≠ vundef) &&
  (getF d vF ≠ vnull && getF d vF ≠ vundef && !jsIsNaN (getF d vF))

/-- One accumulator entry of the `matrix` object. -/
structure HeatEntry where
  x : Value
  y : Value
  value : Option ℚ
  count : ℕ
  originalData : List Rec
deriving DecidableEq, Repr

/-- NaN-propagating addition (`matrix[key].value += parseFloat(value)`
with `none` as `NaN`). -/
def nanAdd : Option ℚ → Option ℚ → Option ℚ
  | some a, some b => some (a + b)
  | _, _ => none

/-- NaN-propagating sum from 0. -/
def nansum (l : List (Option ℚ)) : Option ℚ := l.foldl nanAdd (some 0)

/-- The fresh zero entry created at `matrix[key]` for a record. -/
def zeroEntry (xF yF : String) (d : Rec) : HeatEntry :=
  { x := getF d xF, y := getF d yF, value := some 0, count := 0,
    originalData := [] }

/-- Update an entry (creating it from the zero entry when absent) with
one record. -/
def stepEntry (xF yF vF : String) (e : Option HeatEntry) (d : Rec) :
    Option HeatEntry :=
  some { x := (e.getD (zeroEntry xF yF d)).x
         y := (e.getD (zeroEntry xF yF d)).y
         value := nanAdd (e.getD (zeroEntry xF yF d)).value
           (jsParseFloatV (getF d vF))
         count := (e.getD (zeroEntry xF yF d)).count + 1
         originalData := (e.getD (zeroEntry xF yF d)).originalData ++ [d] }

/-- One step of the accumulation `forEach` over the `matrix` map. -/
def heatStep (xF yF vF : String) (m : String → Option HeatEntry)
    (d : Rec) : String → Option HeatEntry :=
  if heatValid xF yF vF d then
    fun k =>
      if k = heatKey (getF d xF) (getF d yF) then
        stepEntry xF yF vF (m k) d
      else m k
  else m

/-- The accumulated `matrix` map after the whole loop. -/
def heatMatrix (xF yF vF : String) (data : List Rec) :
    String → Option HeatEntry :=
  data.foldl (heatStep xF yF vF) (fun _ => none)

/-- The records passing the guard, in input order. -/
def heatObserved (xF yF vF : String) (data : List Rec) : List Rec :=
  data.filter (heatValid xF yF vF)

/-- The distinct observed x categories in ascending string order
(`Array.from(xCategories).sort()`). -/
def heatXCats (xF yF vF : String) (data : List Rec) : List Value :=
  ssort (fun a b => valueToString a ≤ valueToString b)
    (dedupFirst ((heatObserved xF yF vF data).map (fun d => getF d xF)))

/-- The distinct observed y categories in ascending string order. -/
def heatYCats (xF yF vF : String) (data : List Rec) : List Value :=
  ssort (fun a b => valueToString a ≤ valueToString b)
    (dedupFirst ((heatObserved xF yF vF data).map (fun d => getF d yF)))

/-- One output matrix cell of `matrixData`. -/
structure MatrixCell where
  x : Value
  y : Value
  value : Option ℚ
  count : ℕ
  originalData : List Rec
deriving DecidableEq, Repr

/-- `existing.value / existing.count` with `none` as `NaN` (an entry
always has positive count, so the zero-count branch is unreachable). -/
def divNaN : Option ℚ → ℕ → Option ℚ
  | some a, n => if n = 0 then none else some (a / (n : ℚ))
  | none, _ => none

/-- `Heatmap.processData`, producing `matrixData`: for every y category
and every x category (y-major, both sorted), the cell from the matrix
entry of the pair's key, or the zero cell when no entry exists. -/
def heatCells (xF yF vF : String) (data : List Rec) : List MatrixCell :=
  if data = [] then []
  else
    (heatYCats xF yF vF data).flatMap (fun yv =>
      (heatXCats xF yF vF data).map (fun xv =>
        match heatMatrix xF yF vF data (heatKey xv yv) with
        | some e =>
          { x := xv, y := yv, value := divNaN e.value e.count,
            count := e.count, originalData := e.originalData }
        | none =>
          { x := xv, y := yv, value := some 0, count := 0,
            originalData := [] }))

/-- The observed records carrying exactly the matrix key `k`. -/
def keyRecords (xF yF vF : String) (data : List Rec) (k : String) :
    List Rec :=
  (heatObserved xF yF vF data).filter
    (fun d => heatKey (getF d xF) (getF d yF) = k)

/-- The observed records carrying exactly the pair (xv, yv). -/
def pairRecords (xF yF vF : String) (data : List Rec) (xv yv : Value) :
    List Rec :=
  (heatObserved xF yF vF data).filter
    (fun d => getF d xF = xv && getF d yF = yv)

/-- The matrix cell the claim describes for the pair (xv, yv): the zero
cell when unobserved, else count, records and NaN-propagating
parseFloat-average of exactly that pair's records. -/
def pairCell (xF yF vF : String) (data : List Rec) (xv yv : Value) :
    MatrixCell :=
  if pairRecords xF yF vF data xv yv = [] then
    { x := xv, y := yv, value := some 0, count := 0, originalData := [] }
  else
    { x := xv, y := yv
      value := divNaN (nansum ((pairRecords xF yF vF data xv yv).map
        (fun d => jsParseFloatV (getF d vF))))
        (pairRecords xF yF vF data xv yv).length
      count := (pairRecords xF yF vF data xv yv).length
      originalData := pairRecords xF yF vF data xv yv }

/-! ## Concrete datasets used as claim witnesses -/

/-- A one-record dataset whose x cell is the number 0 (non-null but
falsy). -/
def dataC5 : List Rec := [[("x", vnum 0), ("y", vnum 1)]]

/-- A two-record dataset with date-string x values out of order and a
group column. -/
def dataC5w : List Rec :=
  [[("x", vstr "2023-01-16"), ("y", vnum 1), ("g", vstr "A")],
   [("x", vstr "2023-01-15"), ("y", vnum 2), ("g", vstr "A")]]

/-- A one-record dataset whose only column holds a date-string. -/
def dataC8 : List Rec := [[("d", vstr "2023-01-15")]]

/-- A heatmap dataset whose pipe-containing categories collide in the
string key `${x}|${y}`: the unobserved pair ("a|b", "c") shares its key
"a|b|c" with the observed pair ("a", "b|c"). -/
def dataC2 : List Rec :=
  [[("x", vstr "a|b"), ("y", vstr "z"), ("v", vnum 1)],
   [("x", vstr "q"), ("y", vstr "c"), ("v", vnum 1)],
   [("x", vstr "a"), ("y", vstr "b|c"), ("v", vnum 5)]]

/-- A pipe-free heatmap dataset (keys collision-free). -/
def dataC2w : List Rec :=
  [[("x", vstr "a"), ("y", vstr "b"), ("v", vnum 2)],
   [("x", vstr "c"), ("y", vstr "b"), ("v", vnum 4)]]

/-- A three-record dataset with two categories (total 60). -/
def dataC1 : List Rec :=
  [[("c", vstr "A"), ("v", vnum 10)],
   [("c", vstr "A"), ("v", vnum 20)],
   [("c", vstr "B"), ("v", vnum 30)]]

/-- Twenty records with twenty distinct categories and distinct positive
values 1..20 (one record per category). -/
def data20 : List Rec :=
  (List.range 20).map
    (fun i => [("c", vstr (toString i)), ("v", vnum ((i : ℚ) + 1))])

/-- A one-record dataset whose x cell is the numeric string "5"
(non-null but not a number). -/
def dataC9 : List Rec := [[("x", vstr "5"), ("y", vnum 1)]]

/-! ## Generic facts about the stable sort -/

theorem insertStable_perm {α : Type} (le : α → α → Bool) (a : α) (l : List α) :
    (insertStable le a l).Perm (a :: l) := by
  induction l with
  | nil => exact List.Perm.refl _
  | cons b t ih =>
    simp only [insertStable]
    split
    · exact List.Perm.refl _
    · exact (ih.cons b).trans (List.Perm.swap a b t)

theorem ssort_perm {α : Type} (le : α → α → Bool) (l : List α) :
    (ssort le l).Perm l := by
  induction l with
  | nil => exact List.Perm.refl _
  | cons a t ih => exact (insertStable_perm le a (ssort le t)).trans (ih.cons a)

theorem mem_ssort {α : Type} {le : α → α → Bool} {l : List α} {a : α}
    (h : a ∈ ssort le l) : a ∈ l :=
  (ssort_perm le l).mem_iff.mp h

theorem insertStable_pairwise {α : Type} {le : α → α → Bool}
    (htot : ∀ a b, le a b = true ∨ le b a = true)
    (htr : ∀ a b c, le a b = true → le b c = true → le a c = true)
    (a : α) {l : List α} (hl : l.Pairwise (fun x y => le x y = true)) :
    (insertStable le a l).Pairwise (fun x y => le x y = true) := by
  induction l with
  | nil => simp [insertStable]
  | cons b t ih =>
    rcases List.pairwise_cons.mp hl with ⟨hb, ht⟩
    simp only [insertStable]
    split
    next h =>
      refine List.pairwise_cons.mpr ⟨?_, hl⟩
      intro x hx
      rcases List.mem_cons.mp hx with rfl | hx
      · exact h
      · exact htr a b x h (hb x hx)
    next h =>
      have hba : le b a = true := by
        rcases htot a b with hab | hba
        · exact absurd hab h
        · exact hba
      refine List.pairwise_cons.mpr ⟨?_, ih ht⟩
      intro x hx
      rcases List.mem_cons.mp ((insertStable_perm le a t).mem_iff.mp hx) with rfl | hx
      · exact hba
      · exact hb x hx

theorem ssort_pairwise {α : Type} {le : α → α → Bool}
    (htot : ∀ a b, le a b = true ∨ le b a = true)
    (htr : ∀ a b c, le a b = true → le b c = true → le a c = true)
    (l : List α) : (ssort le l).Pairwise (fun x y => le x y = true) := by
  induction l with
  | nil => simp [ssort]
  | cons a t ih => exact insertStable_pairwise htot htr a ih

/-! ## Facts about the pie aggregation -/

theorem pieWithPct_value_sum (catF valF : String) (data : List Rec) :
    ((pieWithPct catF valF data).map (fun r => r.value)).sum
      = pieTotal catF valF data := by
  unfold pieWithPct pieTotal
  rw [List.map_map]
  rfl

theorem mem_pieWithPct {catF valF : String} {data : List Rec} {r : PieRow}
    (hr : r ∈ pieWithPct catF valF data) :
    r.percentage =
      if 0 < pieTotal catF valF data
      then r.value * (100 / pieTotal catF valF data) else 0 := by
  rcases List.mem_map.mp hr with ⟨g, _, rfl⟩
  by_cases h : 0 < pieTotal catF valF data
  · simp only [if_pos h]
    show g.value / pieTotal catF valF data * 100 = _
    ring
  · simp only [if_neg h]

theorem sum_pct_of_linear (T : ℚ) (l : List PieRow)
    (h : ∀ r ∈ l, r.percentage = r.value * (100 / T)) :
    (l.map (fun r => r.percentage)).sum
      = ((l.map (fun r => r.value)).sum) * (100 / T) := by
  induction l with
  | nil => simp
  | cons r t ih =>
    simp only [List.map_cons, List.sum_cons]
    rw [h r (List.mem_cons_self r t),
      ih (fun x hx => h x (List.mem_cons_of_mem _ hx)), add_mul]

theorem pieSorted_value_sum (catF valF : String) (data : List Rec) :
    ((pieSorted catF valF data).map (fun r => r.value)).sum
      = pieTotal catF valF data := by
  unfold pieSorted
  rw [((ssort_perm pieLe (pieWithPct catF valF data)).map
        (fun r => r.value)).sum_eq]
  exact pieWithPct_value_sum catF valF data

theorem mem_pieSorted {catF valF : String} {data : List Rec} {r : PieRow}
    (hr : r ∈ pieSorted catF valF data) :
    r.percentage =
      if 0 < pieTotal catF valF data
      then r.value * (100 / pieTotal catF valF data) else 0 :=
  mem_pieWithPct (mem_ssort hr)

theorem pieTotal_nil (catF valF : String) : pieTotal catF valF [] = 0 := rfl

/-- Claim C1: for every input dataset, in the pie categorical-sum output,
if the total of all group sums is positive then the percentage fields of
the output rows sum to exactly 100 (hence within 1e-6), and if the total
is 0 then every output row's percentage is 0. -/
theorem C1_pie_percentages (catF valF : String) (data : List Rec) :
    (0 < pieTotal catF valF data →
      ((pieProcess catF valF data).map (fun r => r.percentage)).sum = 100) ∧
    (pieTotal catF valF data = 0 →
      ∀ r ∈ pieProcess catF valF data, r.percentage = 0) := by
  constructor
  · intro hT
    have hTne : pieTotal catF valF data ≠ 0 := ne_of_gt hT
    by_cases hd : data = []
    · subst hd
      exact absurd (pieTotal_nil catF valF ▸ hT) (lt_irrefl 0)
    · unfold pieProcess
      rw [if_neg hd]
      have hmem : ∀ r ∈ pieSorted catF valF data,
          r.percentage = r.value * (100 / pieTotal catF valF data) := by
        intro r hr
        rw [mem_pieSorted hr, if_pos hT]
      by_cases hlen : 15 < (pieSorted catF valF data).length
      · rw [if_pos hlen]
        have hlin : ∀ r ∈ (pieSorted catF valF data).take 14 ++
            [mkOthers (pieTotal catF valF data)
              ((pieSorted catF valF data).drop 14)],
            r.percentage = r.value * (100 / pieTotal catF valF data) := by
          intro r hr
          rcases List.mem_append.mp hr with h1 | h2
          · exact hmem r (List.take_subset _ _ h1)
          · rw [List.mem_singleton.mp h2]
            simp only [mkOthers, if_pos hT]
            ring
        rw [sum_pct_of_linear _ _ hlin]
        have hv : ((((pieSorted catF valF data).take 14 ++
            [mkOthers (pieTotal catF valF data)
              ((pieSorted catF valF data).drop 14)]).map
                (fun r => r.value)).sum) = pieTotal catF valF data := by
          rw [List.map_append, List.sum_append]
          simp only [List.map_cons, List.map_nil, List.sum_cons, List.sum_nil,
            mkOthers, add_zero]
          rw [← List.sum_append, ← List.map_append, List.take_append_drop]
          exact pieSorted_value_sum catF valF data
        rw [hv]
        field_simp
      · rw [if_neg hlen]
        rw [sum_pct_of_linear _ _ hmem, pieSorted_value_sum]
        field_simp
  · intro hT0 r hr
    have hnot : ¬ 0 < pieTotal catF valF data := by
      rw [hT0]; exact lt_irrefl 0
    have hpct0 : ∀ x ∈ pieSorted catF valF data, x.percentage = 0 := by
      intro x hx
      rw [mem_pieSorted hx, if_neg hnot]
    unfold pieProcess at hr
    by_cases hd : data = []
    · rw [if_pos hd] at hr
      exact absurd hr (List.not_mem_nil r)
    · rw [if_neg hd] at hr
      by_cases hlen : 15 < (pieSorted catF valF data).length
      · rw [if_pos hlen] at hr
        rcases List.mem_append.mp hr with h1 | h2
        · exact hpct0 r (List.take_subset _ _ h1)
        · rw [List.mem_singleton.mp h2]
          simp only [mkOthers, if_neg hnot]
      · rw [if_neg hlen] at hr
        exact hpct0 r hr

/-- Witness for C1: on a concrete dataset with positive total, the
percentages of the pie output sum to 100. -/
theorem C1_pie_percentages_witness :
    0 < pieTotal "c" "v" dataC1 ∧
      ((pieProcess "c" "v" dataC1).map (fun r => r.percentage)).sum = 100 :=
  ⟨by with_unfolding_all decide, (C1_pie_percentages "c" "v" dataC1).1 (by with_unfolding_all decide)⟩

theorem pieSorted_length (catF valF : String) (data : List Rec) :
    (pieSorted catF valF data).length = (pieGroups catF valF data).length := by
  unfold pieSorted
  rw [(ssort_perm pieLe (pieWithPct catF valF data)).length_eq]
  unfold pieWithPct
  rw [List.length_map]

theorem pieLe_total (a b : PieRow) : pieLe a b = true ∨ pieLe b a = true := by
  simp only [pieLe, decide_eq_true_eq]
  exact le_total b.value a.value

theorem pieLe_trans (a b c : PieRow) :
    pieLe a b = true → pieLe b c = true → pieLe a c = true := by
  simp only [pieLe, decide_eq_true_eq]
  intro h1 h2
  exact le_trans h2 h1

/-- Claim C3: whenever the pie categorical-sum produces more than 15
groups, the output is exactly 15 rows: the first 14 rows of the
descending-by-value sorted group list, plus one synthetic `Others` row
folding the remaining groups (its value and count the sums, its records
the concatenation, of the folded rows); concretely, 20 categories with
distinct positive values yield exactly 15 rows, the 15th labeled
`Others` with count 6 (the sum of the counts of the 6 smallest groups,
one record each). -/
theorem C3_pie_top15 :
    (∀ catF valF : String, ∀ data : List Rec,
      15 < (pieGroups catF valF data).length →
        pieProcess catF valF data
          = (pieSorted catF valF data).take 14 ++
              [mkOthers (pieTotal catF valF data)
                ((pieSorted catF valF data).drop 14)] ∧
        (pieProcess catF valF data).length = 15 ∧
        (pieSorted catF valF data).Pairwise (fun a b => b.value ≤ a.value)) ∧
    (pieProcess "c" "v" data20).length = 15 ∧
    (pieProcess "c" "v" data20).getLast?.map (fun r => (r.category, r.count))
      = some (vstr "Others", 6) := by
  refine ⟨?_, ?_, ?_⟩
  · intro catF valF data hlen
    have hlen' : 15 < (pieSorted catF valF data).length := by
      rw [pieSorted_length]; exact hlen
    have hd : data ≠ [] := by
      intro h
      subst h
      have h0 : pieGroups catF valF ([] : List Rec) = [] := rfl
      rw [h0] at hlen
      exact absurd hlen (by decide)
    refine ⟨?_, ?_, ?_⟩
    · unfold pieProcess
      rw [if_neg hd, if_pos hlen']
    · unfold pieProcess
      rw [if_neg hd, if_pos hlen', List.length_append, List.length_take]
      simp only [List.length_cons, List.length_nil]
      omega
    · exact (ssort_pairwise pieLe_total pieLe_trans _).imp
        (fun h => by simpa [pieLe] using h)
  · with_unfolding_all decide
  · with_unfolding_all decide

/-- Witness for C3: the concrete 20-category dataset satisfies the
more-than-15-groups hypothesis, and the theorem then gives the 15-row
output shape. -/
theorem C3_pie_top15_witness :
    15 < (pieGroups "c" "v" data20).length ∧
      (pieProcess "c" "v" data20).length = 15 :=
  ⟨by with_unfolding_all decide,
    (C3_pie_top15.1 "c" "v" data20 (by with_unfolding_all decide)).2.1⟩

/-- Claim C6: the regression fit returns `none` for fewer than 2 pairs
and otherwise the ordinary-least-squares slope and intercept; the
concrete fit of (0,0),(1,1),(2,2) is slope 1, intercept 0, rSquared 1,
and the fit of the single pair (0,5) is `none`. -/
theorem C6_regression :
    (∀ xs ys : List ℚ, xs.length < 2 →
      calculateLinearRegression xs ys = none) ∧
    (∀ xs ys : List ℚ, 2 ≤ xs.length →
      ∃ r, calculateLinearRegression xs ys = some r ∧
        r.slope = ((xs.length : ℚ) *
              (List.zipWith (fun x y => x * y) xs ys).sum
            - xs.sum * ys.sum) /
          ((xs.length : ℚ) * (xs.map (fun x => x * x)).sum
            - xs.sum * xs.sum) ∧
        r.intercept = (ys.sum - r.slope * xs.sum) / (xs.length : ℚ)) ∧
    calculateLinearRegression [0, 1, 2] [0, 1, 2]
      = some { slope := 1, intercept := 0, rSquared := 1 } ∧
    calculateLinearRegression [0] [5] = none := by
  refine ⟨?_, ?_, ?_, ?_⟩
  · intro xs ys h
    unfold calculateLinearRegression
    rw [if_pos h]
  · intro xs ys h
    unfold calculateLinearRegression
    rw [if_neg (by omega)]
    exact ⟨_, rfl, rfl, rfl⟩
  · with_unfolding_all decide
  · rfl

/-- Witness for C6: the fewer-than-2-pairs clause applied to the
concrete single pair (0,5). -/
theorem C6_regression_witness :
    ([(0 : ℚ)].length < 2) ∧ calculateLinearRegression [0] [5] = none :=
  ⟨by decide, C6_regression.1 [0] [5] (by decide)⟩

/-- Counterexample to C9 as stated: the scatter filter keeps a record
whose x cell is the string "5", which is not numeric, because the code
tests the coercing `isNaN` rather than the value's type. -/
theorem C9_counterexample :
    scatterProcess "x" "y" dataC9 = dataC9 ∧
      Value.isNumber (getF [(("x" : String), vstr "5"), ("y", vnum 1)] "x")
        = false := by
  with_unfolding_all decide

/-- Claim C9 (amended): the raw-pair scatter filter returns exactly the
records whose x and y cells are non-null, non-undefined and not `NaN`
under JS numeric coercion (so numeric strings, empty strings and Dates
also pass, not only numbers); kept records pass through unchanged, in
order, with no grouping or aggregation. -/
theorem C9_scatter_filter (xF yF : String) (data : List Rec) :
    scatterProcess xF yF data = data.filter (scatterKeep xF yF) ∧
    (scatterProcess xF yF data).Sublist data ∧
    ∀ d, d ∈ scatterProcess xF yF data ↔
      d ∈ data ∧ scatterKeep xF yF d = true := by
  have h : scatterProcess xF yF data = data.filter (scatterKeep xF yF) := by
    unfold scatterProcess
    by_cases hd : data = []
    · subst hd
      rw [if_pos rfl]
      rfl
    · rw [if_neg hd]
  refine ⟨h, ?_, ?_⟩
  · rw [h]
    exact List.filter_sublist data
  · intro d
    rw [h, List.mem_filter]

/-- Witness for C9: the amended filter characterization evaluated on the
concrete one-record dataset. -/
theorem C9_scatter_filter_witness :
    scatterProcess "x" "y" dataC9 = dataC9.filter (scatterKeep "x" "y") ∧
      ([("x", vstr "5"), ("y", vnum 1)] : Rec) ∈ scatterProcess "x" "y" dataC9 :=
  ⟨(C9_scatter_filter "x" "y" dataC9).1,
    ((C9_scatter_filter "x" "y" dataC9).2.2 _).mpr
      ⟨by with_unfolding_all decide, by with_unfolding_all decide⟩⟩

/-! ## Facts about the decimal parser and the coercer -/

theorem takeWhile_append_nil {α : Type} {p : α → Bool} {l : List α}
    (h : l.dropWhile p = []) (w : List α) :
    (l ++ w).takeWhile p = l ++ w.takeWhile p := by
  induction l with
  | nil => simp
  | cons a t ih =>
    rw [List.dropWhile_cons] at h
    by_cases hpa : p a = true
    · rw [if_pos hpa] at h
      simp [List.takeWhile_cons, hpa, ih h]
    · rw [if_neg hpa] at h
      exact absurd h (by simp)

theorem dropWhile_append_nil {α : Type} {p : α → Bool} {l : List α}
    (h : l.dropWhile p = []) (w : List α) :
    (l ++ w).dropWhile p = w.dropWhile p := by
  induction l with
  | nil => simp
  | cons a t ih =>
    rw [List.dropWhile_cons] at h
    by_cases hpa : p a = true
    · rw [if_pos hpa] at h
      simp [List.dropWhile_cons, hpa, ih h]
    · rw [if_neg hpa] at h
      exact absurd h (by simp)

theorem takeWhile_append_stop {α : Type} {p : α → Bool} {l : List α}
    (h : l.dropWhile p ≠ []) (w : List α) :
    (l ++ w).takeWhile p = l.takeWhile p := by
  induction l with
  | nil => exact absurd rfl h
  | cons a t ih =>
    rw [List.dropWhile_cons] at h
    by_cases hpa : p a = true
    · rw [if_pos hpa] at h
      simp [List.takeWhile_cons, hpa, ih h]
    · simp [List.takeWhile_cons, hpa]

theorem dropWhile_append_stop {α : Type} {p : α → Bool} {l : List α}
    (h : l.dropWhile p ≠ []) (w : List α) :
    (l ++ w).dropWhile p = l.dropWhile p ++ w := by
  induction l with
  | nil => exact absurd rfl h
  | cons a t ih =>
    rw [List.dropWhile_cons] at h
    by_cases hpa : p a = true
    · rw [if_pos hpa] at h
      simp [List.dropWhile_cons, hpa, ih h]
    · simp [List.dropWhile_cons, hpa]

theorem isWs_not_isDig {c : Char} (h : isWs c = true) : isDig c = false := by
  simp only [isWs, decide_eq_true_eq] at h
  rcases h with rfl | rfl | rfl | rfl <;> decide

theorem isWs_ne_dot {c : Char} (h : isWs c = true) : c ≠ '.' := by
  simp only [isWs, decide_eq_true_eq] at h
  rcases h with rfl | rfl | rfl | rfl <;> decide

theorem ws_takeWhile_isDig {w : List Char} (hw : ∀ c ∈ w, isWs c = true) :
    w.takeWhile isDig = [] := by
  cases w with
  | nil => rfl
  | cons c t =>
    have hc := isWs_not_isDig (hw c (List.mem_cons_self c t))
    simp [List.takeWhile_cons, hc]

theorem ws_dropWhile_isDig {w : List Char} (hw : ∀ c ∈ w, isWs c = true) :
    w.dropWhile isDig = w := by
  cases w with
  | nil => rfl
  | cons c t =>
    have hc := isWs_not_isDig (hw c (List.mem_cons_self c t))
    simp [List.dropWhile_cons, hc]

theorem parseFrac_nil : parseFrac [] = ([], []) := rfl

theorem parseFrac_dot (t : List Char) :
    parseFrac ('.' :: t) = (t.takeWhile isDig, t.dropWhile isDig) := rfl

theorem parseFrac_other {c : Char} {t : List Char} (hc : c ≠ '.') :
    parseFrac (c :: t) = ([], c :: t) := by
  unfold parseFrac
  split
  next heq =>
    exact absurd (List.cons_eq_cons.mp heq).1 hc
  next => rfl

theorem parseFrac_ws {w : List Char} (hw : ∀ c ∈ w, isWs c = true) :
    parseFrac w = ([], w) := by
  cases w with
  | nil => rfl
  | cons c t =>
    exact parseFrac_other (isWs_ne_dot (hw c (List.mem_cons_self c t)))

theorem takeWhile_eq_self_of_dropWhile_nil {α : Type} {p : α → Bool}
    {l : List α} (h : l.dropWhile p = []) : l.takeWhile p = l := by
  have := List.takeWhile_append_dropWhile p l
  rw [h, List.append_nil] at this
  exact this

theorem parseParts_ws_extend {l1 w : List Char}
    (hw : ∀ c ∈ w, isWs c = true)
    (hrest : (parseFrac (l1.dropWhile isDig)).2 = []) :
    (l1 ++ w).takeWhile isDig = l1.takeWhile isDig ∧
    (parseFrac ((l1 ++ w).dropWhile isDig)).1
      = (parseFrac (l1.dropWhile isDig)).1 ∧
    (parseFrac ((l1 ++ w).dropWhile isDig)).2 = w := by
  cases hl2 : l1.dropWhile isDig with
  | nil =>
    have hds := takeWhile_eq_self_of_dropWhile_nil hl2
    rw [takeWhile_append_nil hl2 w, dropWhile_append_nil hl2 w,
      ws_takeWhile_isDig hw, ws_dropWhile_isDig hw, List.append_nil, hds,
      parseFrac_ws hw, parseFrac_nil]
    exact ⟨rfl, rfl, rfl⟩
  | cons c t =>
    have hne : l1.dropWhile isDig ≠ [] := by rw [hl2]; simp
    by_cases hc : c = '.'
    · subst hc
      rw [hl2, parseFrac_dot] at hrest
      have hrest2 : t.dropWhile isDig = [] := hrest
      rw [takeWhile_append_stop hne w, dropWhile_append_stop hne w, hl2,
        List.cons_append, parseFrac_dot (t ++ w), parseFrac_dot t,
        takeWhile_append_nil hrest2 w, dropWhile_append_nil hrest2 w,
        ws_takeWhile_isDig hw, ws_dropWhile_isDig hw, List.append_nil,
        takeWhile_eq_self_of_dropWhile_nil hrest2]
      exact ⟨rfl, rfl, rfl⟩
    · rw [hl2, parseFrac_other hc] at hrest
      exact absurd hrest (by simp)

theorem parseMag_ws_extend {sg : ℚ} {l1 : List Char} {q : ℚ} {w : List Char}
    (hw : ∀ c ∈ w, isWs c = true) (h : parseMag sg l1 = some (q, [])) :
    parseMag sg (l1 ++ w) = some (q, w) := by
  unfold parseMag at h
  by_cases hg : l1.takeWhile isDig = [] ∧ (parseFrac (l1.dropWhile isDig)).1 = []
  · rw [if_pos hg] at h
    exact absurd h (by simp)
  · rw [if_neg hg] at h
    injection h with h2
    injection h2 with hval hrest
    rcases parseParts_ws_extend hw hrest with ⟨e1, e2, e3⟩
    unfold parseMag
    rw [e1, e2, e3, if_neg hg, hval]

theorem parseSign_minus (t : List Char) : parseSign ('-' :: t) = (-1, t) := rfl

theorem parseSign_plus (t : List Char) : parseSign ('+' :: t) = (1, t) := rfl

theorem parseSign_other {c : Char} (t : List Char) (h1 : c ≠ '-')
    (h2 : c ≠ '+') : parseSign (c :: t) = (1, c :: t) := by
  simp only [parseSign]
  rw [if_neg h1, if_neg h2]

theorem parseDec_ws_extend {l w : List Char} {q : ℚ}
    (hw : ∀ c ∈ w, isWs c = true) (h : parseDec l = some (q, [])) :
    parseDec (l ++ w) = some (q, w) := by
  unfold parseDec at h ⊢
  cases l with
  | nil =>
    have h0 : parseMag (parseSign []).1 (parseSign []).2 = none := by
      simp [parseSign, parseMag, parseFrac_nil]
    rw [h0] at h
    exact absurd h (by simp)
  | cons c t =>
    by_cases hc : c = '-'
    · subst hc
      rw [parseSign_minus] at h
      rw [List.cons_append, parseSign_minus]
      exact parseMag_ws_extend hw h
    · by_cases hc2 : c = '+'
      · subst hc2
        rw [parseSign_plus] at h
        rw [List.cons_append, parseSign_plus]
        exact parseMag_ws_extend hw h
      · rw [parseSign_other t hc hc2] at h
        rw [List.cons_append, parseSign_other (t ++ w) hc hc2,
          ← List.cons_append]
        exact parseMag_ws_extend hw h

theorem trimL_split (l : List Char) :
    ∃ w, (∀ c ∈ w, isWs c = true) ∧ trimL l = trimB l ++ w := by
  refine ⟨((trimL l).reverse.takeWhile isWs).reverse, ?_, ?_⟩
  · intro c hc
    exact List.mem_takeWhile_imp (List.mem_reverse.mp hc)
  · unfold trimB
    rw [← List.reverse_append, List.takeWhile_append_dropWhile,
      List.reverse_reverse]

theorem jsTrim_eq_empty_iff {s : String} : jsTrim s = "" ↔ trimB s.data = [] := by
  constructor
  · intro h
    have h2 := congrArg String.data h
    simpa [jsTrim] using h2
  · intro h
    unfold jsTrim
    rw [h]

theorem jsNumber_parseFloat_agree {s : String} {q : ℚ}
    (h : jsNumberOfString s = some q) (hne : trimB s.data ≠ []) :
    jsParseFloat s = some q := by
  unfold jsNumberOfString at h
  rw [if_neg hne] at h
  have hp : parseDec (trimB s.data) = some (q, []) := by
    cases hd : parseDec (trimB s.data) with
    | none =>
      rw [hd] at h
      exact absurd h (by simp)
    | some pr =>
      rcases pr with ⟨q2, rest⟩
      rw [hd] at h
      cases rest with
      | nil =>
        simp only at h
        rw [Option.some.inj h]
      | cons c t =>
        exact absurd h (by simp)
  rcases trimL_split s.data with ⟨w, hw, hsplit⟩
  unfold jsParseFloat
  rw [hsplit, parseDec_ws_extend hw hp]

theorem jsTrim_empty : jsTrim "" = "" := rfl

theorem coerce_some (s : String) :
    coerce (some s) =
      if s = "" then vnull
      else if jsTrim s = "" then vnull
      else if (jsNumberOfString s).isSome && (jsParseFloat s).isSome then
        vnum ((jsParseFloat s).getD 0)
      else if isDateString (vstr s) then vdate ((jsDateParse s).getD 0)
      else vstr (jsTrim s) := rfl

/-- Claim C4: the coercer maps empty, whitespace-only and null raw
values to null; values whose trimmed form fully parses as a number to
that number, with numeric parsing taking priority over date parsing;
remaining values matching a date pattern and parseable as a calendar
date to a Date; and all other values to their trimmed string — with the
concrete instances coerce(""), coerce("   "), coerce(null) = null,
coerce("42") = 42, coerce("2023-01-15") a Date, coerce("hello") the
string "hello". -/
theorem C4_coerce :
    coerce none = vnull ∧
    coerce (some "") = vnull ∧
    coerce (some "   ") = vnull ∧
    coerce (some "42") = vnum 42 ∧
    Value.isDate (coerce (some "2023-01-15")) = true ∧
    coerce (some "hello") = vstr "hello" ∧
    (∀ s : String, jsTrim s = "" → coerce (some s) = vnull) ∧
    (∀ s : String, ∀ q : ℚ, jsNumberOfString s = some q → jsTrim s ≠ "" →
      coerce (some s) = vnum q) ∧
    (∀ s : String, jsTrim s ≠ "" → jsNumberOfString s = none →
      isDateString (vstr s) = true →
      Value.isDate (coerce (some s)) = true) ∧
    (∀ s : String, jsTrim s ≠ "" → jsNumberOfString s = none →
      isDateString (vstr s) = false → coerce (some s) = vstr (jsTrim s)) := by
  refine ⟨rfl, rfl, by with_unfolding_all decide, by with_unfolding_all decide,
    by with_unfolding_all decide, by with_unfolding_all decide, ?_, ?_, ?_, ?_⟩
  · intro s h
    rw [coerce_some]
    by_cases hs : s = ""
    · rw [if_pos hs]
    · rw [if_neg hs, if_pos h]
  · intro s q h hne
    have hs : s ≠ "" := by
      intro e
      subst e
      exact hne jsTrim_empty
    have hpf : jsParseFloat s = some q :=
      jsNumber_parseFloat_agree h (fun e => hne (jsTrim_eq_empty_iff.mpr e))
    rw [coerce_some]
    rw [if_neg hs, if_neg hne, if_pos (by rw [h, hpf]; rfl), hpf]
    rfl
  · intro s hne hnum hdate
    have hs : s ≠ "" := by
      intro e
      subst e
      exact hne jsTrim_empty
    rw [coerce_some]
    rw [if_neg hs, if_neg hne, if_neg (by rw [hnum]; simp), if_pos hdate]
    rfl
  · intro s hne hnum hdate
    have hs : s ≠ "" := by
      intro e
      subst e
      exact hne jsTrim_empty
    rw [coerce_some]
    rw [if_neg hs, if_neg hne, if_neg (by rw [hnum]; simp),
      if_neg (by rw [hdate]; simp)]

/-- Witness for C4: the numeric-priority clause applied to the concrete
string "42". -/
theorem C4_coerce_witness :
    jsNumberOfString "42" = some 42 ∧ jsTrim "42" ≠ "" ∧
      coerce (some "42") = vnum 42 :=
  ⟨by with_unfolding_all decide, by with_unfolding_all decide,
    C4_coerce.2.2.2.2.2.2.2.1 "42" 42 (by with_unfolding_all decide)
      (by with_unfolding_all decide)⟩

/-! ## Facts about validation and classification -/

theorem checkField_none (sug : Suggestions) (ctName : String)
    (requiredTypes : List String) (fieldName : String) :
    checkField sug ctName none requiredTypes fieldName
      = ([fieldName ++ " field is required for " ++ ctName ++ " chart"], []) :=
  rfl

theorem checkField_some (sug : Suggestions) (ctName f : String)
    (requiredTypes : List String) (fieldName : String) :
    checkField sug ctName (some f) requiredTypes fieldName =
      if sug.all.contains f = false then
        (["Field \x27" ++ f ++ "\x27 does not exist in dataset"], [])
      else
        if requiredTypes.contains
            (if sug.numeric.contains f then "numeric"
             else if sug.date.contains f then "date"
             else "categorical") = false then
          ([], ["Field \x27" ++ f ++ "\x27 is " ++
            (if sug.numeric.contains f then "numeric"
             else if sug.date.contains f then "date"
             else "categorical") ++ ", but " ++
            String.intercalate " or " requiredTypes ++
            " is recommended for " ++ fieldName])
        else ([], []) := rfl

theorem checkField_missing (sug : Suggestions) (ctName : String)
    {f : String} (requiredTypes : List String) (fieldName : String)
    (h : sug.all.contains f = false) :
    checkField sug ctName (some f) requiredTypes fieldName
      = (["Field \x27" ++ f ++ "\x27 does not exist in dataset"], []) := by
  rw [checkField_some, h, if_pos rfl]

theorem checkField_present_no_error (sug : Suggestions) (ctName : String)
    {f : String} (requiredTypes : List String) (fieldName : String)
    (h : sug.all.contains f = true) :
    (checkField sug ctName (some f) requiredTypes fieldName).1 = [] := by
  rw [checkField_some, h, if_neg (by simp)]
  generalize (if sug.numeric.contains f then "numeric"
    else if sug.date.contains f then "date" else "categorical") = k
  split <;> rfl

/-- Claim C7: validation is valid exactly when its error list is empty;
each unmapped required role contributes its required-field error, each
mapped but nonexistent field contributes its does-not-exist error, and
a mapped, existing field never contributes an error (kind mismatches
are warnings only), so warnings alone never make the result invalid. -/
theorem C7_validateFieldMapping (ct : ChartType) (m : Mapping)
    (data : List Rec) (_hd : data ≠ []) :
    ((validateFieldMapping ct m data).isValid = true ↔
      (validateFieldMapping ct m data).errors = []) ∧
    (∀ chk ∈ roleChecks ct, chk.1 m = none →
      (chk.2.2 ++ " field is required for " ++ ChartType.name ct ++ " chart")
        ∈ (validateFieldMapping ct m data).errors) ∧
    (∀ chk ∈ roleChecks ct, ∀ f : String, chk.1 m = some f →
      (getFieldSuggestions data).all.contains f = false →
      ("Field \x27" ++ f ++ "\x27 does not exist in dataset")
        ∈ (validateFieldMapping ct m data).errors) ∧
    ((∀ chk ∈ roleChecks ct, ∃ f : String, chk.1 m = some f ∧
        (getFieldSuggestions data).all.contains f = true) →
      (validateFieldMapping ct m data).errors = []) := by
  refine ⟨List.isEmpty_iff, ?_, ?_, ?_⟩
  · intro chk hchk hnone
    apply List.mem_flatten.mpr
    refine ⟨_, List.mem_map.mpr ⟨chk, hchk, rfl⟩, ?_⟩
    rw [hnone, checkField_none]
    exact List.mem_singleton.mpr rfl
  · intro chk hchk f hf habs
    apply List.mem_flatten.mpr
    refine ⟨_, List.mem_map.mpr ⟨chk, hchk, rfl⟩, ?_⟩
    rw [hf, checkField_missing _ _ _ _ habs]
    exact List.mem_singleton.mpr rfl
  · intro hall
    apply List.flatten_eq_nil_iff.mpr
    intro l hl
    rcases List.mem_map.mp hl with ⟨chk, hchk, rfl⟩
    rcases hall chk hchk with ⟨f, hf, hmem⟩
    rw [hf]
    exact checkField_present_no_error _ _ _ _ hmem

/-- Witness for C7: on a concrete dataset, a bar mapping with no x role
and a nonexistent y field is invalid with both errors present. -/
theorem C7_validateFieldMapping_witness :
    ("X-axis field is required for bar chart"
      ∈ (validateFieldMapping ChartType.bar { y := some "zzz" } dataC1).errors) ∧
    ("Field \x27zzz\x27 does not exist in dataset"
      ∈ (validateFieldMapping ChartType.bar { y := some "zzz" } dataC1).errors) :=
  ⟨(C7_validateFieldMapping ChartType.bar { y := some "zzz" } dataC1
      (by simp [dataC1])).2.1
      (Mapping.x, ["categorical"], "X-axis") (by simp [roleChecks]) rfl,
    (C7_validateFieldMapping ChartType.bar { y := some "zzz" } dataC1
      (by simp [dataC1])).2.2.1
      (Mapping.y, ["numeric"], "Y-axis") (by simp [roleChecks]) "zzz" rfl
      (by with_unfolding_all decide)⟩

/-- Counterexample to C8 as stated: on a column whose first non-null
sample is the date-string "2023-01-15", `getColumnInfo` assigns
`categorical`, not `date` (it tests only `instanceof Date`, unlike
`getFieldSuggestions`). -/
theorem C8_counterexample :
    sampleValue dataC8 "d" = some (vstr "2023-01-15") ∧
    isDateString (vstr "2023-01-15") = true ∧
    getColumnInfoKinds dataC8 = [("d", Kind.categorical)] ∧
    (getFieldSuggestions dataC8).date = ["d"] := by
  with_unfolding_all decide

/-- Claim C8 (amended): both classifiers assign `numeric` when the
first non-null sample is a number and `categorical` when no shape
matches; a `Date`-instance sample is `date` for both; but a date-string
sample is `date` only for `getFieldSuggestions`, while `getColumnInfo`
assigns `categorical` (it tests only `instanceof Date`). -/
theorem C8_field_classifier (data : List Rec) (col : String) :
    (∀ q : ℚ, sampleValue data col = some (vnum q) →
      colInfoKind (columnValues data col) = Kind.numeric ∧
      sugKind (columnValues data col) = Kind.numeric) ∧
    (sampleValue data col = some vnan →
      colInfoKind (columnValues data col) = Kind.numeric ∧
      sugKind (columnValues data col) = Kind.numeric) ∧
    (∀ t : ℤ, sampleValue data col = some (vdate t) →
      colInfoKind (columnValues data col) = Kind.date ∧
      sugKind (columnValues data col) = Kind.date) ∧
    (∀ s : String, sampleValue data col = some (vstr s) →
      colInfoKind (columnValues data col) = Kind.categorical ∧
      sugKind (columnValues data col)
        = (if isDateString (vstr s) then Kind.date else Kind.categorical)) ∧
    (sampleValue data col = none →
      colInfoKind (columnValues data col) = Kind.categorical ∧
      sugKind (columnValues data col) = Kind.categorical) ∧
    (∀ d0 : Rec, ∀ rest : List Rec, data = d0 :: rest →
      ((col ∈ (getFieldSuggestions data).date ↔
          col ∈ d0.map Prod.fst ∧
          sugKind (columnValues data col) = Kind.date) ∧
        ((col, colInfoKind (columnValues data col))
            ∈ getColumnInfoKinds data ↔ col ∈ d0.map Prod.fst))) := by
  refine ⟨?_, ?_, ?_, ?_, ?_, ?_⟩
  · intro q h
    unfold colInfoKind sugKind
    rw [show (columnValues data col).head? = some (vnum q) from h]
    exact ⟨rfl, rfl⟩
  · intro h
    unfold colInfoKind sugKind
    rw [show (columnValues data col).head? = some vnan from h]
    exact ⟨rfl, rfl⟩
  · intro t h
    unfold colInfoKind sugKind
    rw [show (columnValues data col).head? = some (vdate t) from h]
    exact ⟨rfl, rfl⟩
  · intro s h
    unfold colInfoKind sugKind
    rw [show (columnValues data col).head? = some (vstr s) from h]
    exact ⟨rfl, rfl⟩
  · intro h
    unfold colInfoKind sugKind
    rw [show (columnValues data col).head? = none from h]
    exact ⟨rfl, rfl⟩
  · intro d0 rest hdata
    subst hdata
    constructor
    · show col ∈ (d0.map Prod.fst).filter _ ↔ _
      rw [List.mem_filter]
      simp only [decide_eq_true_eq]
    · show (col, colInfoKind (columnValues (d0 :: rest) col))
          ∈ (d0.map Prod.fst).map _ ↔ _
      rw [List.mem_map]
      constructor
      · rintro ⟨c, hc, heq⟩
        rcases Prod.mk.injEq _ _ _ _ ▸ heq with ⟨rfl, -⟩
        exact hc
      · intro hc
        exact ⟨col, hc, rfl⟩

/-- Witness for C8: the amended string-sample clause evaluated on the
concrete date-string dataset. -/
theorem C8_field_classifier_witness :
    colInfoKind (columnValues dataC8 "d") = Kind.categorical ∧
      sugKind (columnValues dataC8 "d")
        = (if isDateString (vstr "2023-01-15") then Kind.date
           else Kind.categorical) :=
  (C8_field_classifier dataC8 "d").2.2.2.1 "2023-01-15"
    (by with_unfolding_all decide)

/-! ## Membership-restricted sortedness, dedup and grouping facts -/

theorem insertStable_pairwise_mem {α : Type} {le : α → α → Bool} {a : α}
    {l : List α} (hl : l.Pairwise (fun x y => le x y = true))
    (htot : ∀ b ∈ l, le a b = true ∨ le b a = true)
    (htr : ∀ b ∈ l, ∀ c ∈ l, le a b = true → le b c = true → le a c = true) :
    (insertStable le a l).Pairwise (fun x y => le x y = true) := by
  induction l with
  | nil => simp [insertStable]
  | cons b t ih =>
    rcases List.pairwise_cons.mp hl with ⟨hb, ht⟩
    simp only [insertStable]
    split
    next h =>
      refine List.pairwise_cons.mpr ⟨?_, hl⟩
      intro x hx
      rcases List.mem_cons.mp hx with rfl | hx
      · exact h
      · exact htr b (List.mem_cons_self b t) x (List.mem_cons_of_mem b hx)
          h (hb x hx)
    next h =>
      have hba : le b a = true := by
        rcases htot b (List.mem_cons_self b t) with hab | hba
        · exact absurd hab h
        · exact hba
      refine List.pairwise_cons.mpr
        ⟨?_, ih ht (fun x hx => htot x (List.mem_cons_of_mem b hx))
          (fun x hx y hy => htr x (List.mem_cons_of_mem b hx)
            y (List.mem_cons_of_mem b hy))⟩
      intro x hx
      rcases List.mem_cons.mp ((insertStable_perm le a t).mem_iff.mp hx)
        with rfl | hx
      · exact hba
      · exact hb x hx

theorem ssort_pairwise_mem {α : Type} {le : α → α → Bool} {l : List α}
    (htot : ∀ a ∈ l, ∀ b ∈ l, le a b = true ∨ le b a = true)
    (htr : ∀ a ∈ l, ∀ b ∈ l, ∀ c ∈ l,
      le a b = true → le b c = true → le a c = true) :
    (ssort le l).Pairwise (fun x y => le x y = true) := by
  induction l with
  | nil => simp [ssort]
  | cons a t ih =>
    refine insertStable_pairwise_mem
      (ih (fun x hx y hy => htot x (List.mem_cons_of_mem a hx)
          y (List.mem_cons_of_mem a hy))
        (fun x hx y hy z hz => htr x (List.mem_cons_of_mem a hx)
          y (List.mem_cons_of_mem a hy) z (List.mem_cons_of_mem a hz)))
      ?_ ?_
    · intro b hb
      exact htot a (List.mem_cons_self a t) b
        (List.mem_cons_of_mem a (mem_ssort hb))
    · intro b hb c hc
      exact htr a (List.mem_cons_self a t) b
        (List.mem_cons_of_mem a (mem_ssort hb))
        c (List.mem_cons_of_mem a (mem_ssort hc))

theorem mem_dedupFirst {α : Type} [DecidableEq α] {a : α} {l : List α} :
    a ∈ dedupFirst l ↔ a ∈ l := by
  induction l with
  | nil => simp [dedupFirst]
  | cons b t ih =>
    simp only [dedupFirst, List.mem_cons, List.mem_filter,
      decide_eq_true_eq]
    by_cases hab : a = b
    · simp [hab]
    · simp [hab, ih]

theorem nodup_dedupFirst {α : Type} [DecidableEq α] (l : List α) :
    (dedupFirst l).Nodup := by
  induction l with
  | nil => simp [dedupFirst]
  | cons b t ih =>
    rw [dedupFirst, List.nodup_cons]
    constructor
    · intro hmem
      have := (List.mem_filter.mp hmem).2
      simp at this
    · exact ih.filter _

theorem mem_d3group {α β : Type} [DecidableEq β] {f : α → β} {l : List α}
    {p : β × List α} (hp : p ∈ d3group f l) :
    p.2 = l.filter (fun a => f a = p.1) ∧ p.1 ∈ l.map f := by
  rcases List.mem_map.mp hp with ⟨b, hb, rfl⟩
  exact ⟨rfl, mem_dedupFirst.mp hb⟩

theorem d3group_keys {α β : Type} [DecidableEq β] (f : α → β) (l : List α) :
    (d3group f l).map Prod.fst = dedupFirst (l.map f) := by
  unfold d3group
  rw [List.map_map]
  exact List.map_id _

/-! ## Facts about the line aggregation -/

theorem lineLe_total (xF : String) (a b : Rec) :
    lineLe xF a b = true ∨ lineLe xF b a = true := by
  unfold lineLe
  cases jsNewDateTime (getF a xF) with
  | none => simp
  | some x =>
    cases jsNewDateTime (getF b xF) with
    | none => simp
    | some y =>
      simp only [decide_eq_true_eq]
      exact le_total x y

theorem lineLe_trans_of_some (xF : String) {a b c : Rec}
    (ha : (jsNewDateTime (getF a xF)).isSome = true)
    (hb : (jsNewDateTime (getF b xF)).isSome = true)
    (hc : (jsNewDateTime (getF c xF)).isSome = true) :
    lineLe xF a b = true → lineLe xF b c = true → lineLe xF a c = true := by
  unfold lineLe
  rcases Option.isSome_iff_exists.mp ha with ⟨x, hx⟩
  rcases Option.isSome_iff_exists.mp hb with ⟨y, hy⟩
  rcases Option.isSome_iff_exists.mp hc with ⟨z, hz⟩
  rw [hx, hy, hz]
  simp only [decide_eq_true_eq]
  exact le_trans

/-- Counterexample to C5 as stated: a record whose x value is the
number 0 has non-null, non-undefined x and y, yet the line filter drops
it (the code tests truthiness of `d[xField]`, and 0 is falsy). -/
theorem C5_counterexample :
    getF [(("x" : String), vnum 0), ("y", vnum 1)] "x" ≠ vnull ∧
    getF [(("x" : String), vnum 0), ("y", vnum 1)] "x" ≠ vundef ∧
    getF [(("x" : String), vnum 0), ("y", vnum 1)] "y" ≠ vnull ∧
    getF [(("x" : String), vnum 0), ("y", vnum 1)] "y" ≠ vundef ∧
    lineProcess "x" "y" none dataC5 = [(vstr "default", [])] := by
  with_unfolding_all decide

/-- Claim C5 (amended): for nonempty datasets, the line aggregation
keeps exactly the records whose x value is truthy (so a numeric 0,
empty-string, null, undefined or NaN x is dropped) and whose y value is
non-null and non-undefined; it sorts the kept records ascending by x
interpreted as a date (whenever the kept x values all parse as dates);
with a group role it partitions them into one sequence per distinct
group value, each independently sorted ascending by x; with no group
role it produces a single `default` partition of all kept records. -/
theorem C5_line_process (xF yF : String) (data : List Rec)
    (hd : data ≠ [])
    (hsortable : ∀ d ∈ data, lineKeep xF yF d = true →
      (jsNewDateTime (getF d xF)).isSome = true) :
    (lineProcess xF yF none data
        = [(vstr "default", ssort (lineLe xF) (data.filter (lineKeep xF yF)))] ∧
      (ssort (lineLe xF) (data.filter (lineKeep xF yF))).Perm
        (data.filter (lineKeep xF yF)) ∧
      (ssort (lineLe xF) (data.filter (lineKeep xF yF))).Pairwise
        (fun a b => lineLe xF a b = true)) ∧
    (∀ g : String,
      ((lineProcess xF yF (some g) data).map Prod.fst).Nodup ∧
      (∀ k : Value, k ∈ (lineProcess xF yF (some g) data).map Prod.fst ↔
        k ∈ (data.filter (lineKeep xF yF)).map (fun d => getF d g)) ∧
      (∀ k : Value, ∀ part : List Rec,
        (k, part) ∈ lineProcess xF yF (some g) data →
        part.Perm ((data.filter (lineKeep xF yF)).filter
          (fun d => getF d g = k)) ∧
        part.Pairwise (fun a b => lineLe xF a b = true))) := by
  have hmemkeep : ∀ d ∈ data.filter (lineKeep xF yF),
      (jsNewDateTime (getF d xF)).isSome = true := by
    intro d hdm
    rcases List.mem_filter.mp hdm with ⟨hm, hk⟩
    exact hsortable d hm hk
  have hsorted : ∀ l : List Rec,
      (∀ d ∈ l, (jsNewDateTime (getF d xF)).isSome = true) →
      (ssort (lineLe xF) l).Pairwise (fun a b => lineLe xF a b = true) := by
    intro l hl
    exact ssort_pairwise_mem
      (fun a _ b _ => lineLe_total xF a b)
      (fun a ha b hb c hc =>
        lineLe_trans_of_some xF (hl a ha) (hl b hb) (hl c hc))
  constructor
  · refine ⟨?_, ssort_perm _ _, hsorted _ hmemkeep⟩
    unfold lineProcess
    rw [if_neg hd]
  · intro g
    have hout : lineProcess xF yF (some g) data
        = (d3group (fun d => getF d g)
            (ssort (lineLe xF) (data.filter (lineKeep xF yF)))).map
              (fun p => (p.1, ssort (lineLe xF) p.2)) := by
      unfold lineProcess
      rw [if_neg hd]
    refine ⟨?_, ?_, ?_⟩
    · rw [hout, List.map_map]
      unfold d3group
      rw [List.map_map]
      exact List.Nodup.map (fun a b h => h) (nodup_dedupFirst _)
    · intro k
      rw [hout, List.map_map]
      unfold d3group
      rw [List.map_map]
      show k ∈ (dedupFirst _).map _ ↔ _
      constructor
      · intro hk
        rcases List.mem_map.mp hk with ⟨b, hb, rfl⟩
        exact ((ssort_perm (lineLe xF) (data.filter (lineKeep xF yF))).map
          (fun d => getF d g)).mem_iff.mp (mem_dedupFirst.mp hb)
      · intro hk
        refine List.mem_map.mpr ⟨k, mem_dedupFirst.mpr ?_, rfl⟩
        exact ((ssort_perm (lineLe xF) (data.filter (lineKeep xF yF))).map
          (fun d => getF d g)).mem_iff.mpr hk
    · intro k part hkp
      rw [hout] at hkp
      rcases List.mem_map.mp hkp with ⟨p, hp, heq⟩
      rcases mem_d3group hp with ⟨hp2, -⟩
      have hk : p.1 = k := congrArg Prod.fst heq
      have hpart : part = ssort (lineLe xF) p.2 := (congrArg Prod.snd heq).symm
      subst hk
      constructor
      · rw [hpart, hp2]
        refine ((ssort_perm _ _).trans ?_)
        exact ((ssort_perm (lineLe xF) (data.filter (lineKeep xF yF))).filter
          (fun d => getF d g = p.1))
      · rw [hpart]
        refine hsorted _ ?_
        intro d hdm
        rw [hp2] at hdm
        exact hmemkeep d (mem_ssort (List.mem_of_mem_filter hdm))

/-- Witness for C5: on a concrete two-record dataset with date-string
x values, the no-group clause gives the single default partition. -/
theorem C5_line_process_witness :
    lineProcess "x" "y" none dataC5w
      = [(vstr "default",
          ssort (lineLe "x") (dataC5w.filter (lineKeep "x" "y")))] :=
  (C5_line_process "x" "y" dataC5w (by simp [dataC5w])
    (by with_unfolding_all decide)).1.1

/-! ## Facts about the heatmap accumulation -/

theorem heatStep_apply_valid {xF yF vF : String}
    {m : String → Option HeatEntry} {d : Rec}
    (h : heatValid xF yF vF d = true) (k : String) :
    heatStep xF yF vF m d k =
      if k = heatKey (getF d xF) (getF d yF) then stepEntry xF yF vF (m k) d
      else m k := by
  unfold heatStep
  rw [if_pos h]

theorem heatStep_apply_invalid {xF yF vF : String}
    {m : String → Option HeatEntry} {d : Rec}
    (h : heatValid xF yF vF d = false) :
    heatStep xF yF vF m d = m := by
  unfold heatStep
  rw [h]
  rfl

theorem heatMatrix_foldl (xF yF vF : String) (data : List Rec)
    (m : String → Option HeatEntry) (k : String) :
    data.foldl (heatStep xF yF vF) m k
      = ((data.filter (heatValid xF yF vF)).filter
          (fun d => heatKey (getF d xF) (getF d yF) = k)).foldl
            (stepEntry xF yF vF) (m k) := by
  induction data generalizing m with
  | nil => rfl
  | cons d t ih =>
    rw [List.foldl_cons, ih]
    by_cases hv : heatValid xF yF vF d = true
    · by_cases hk : heatKey (getF d xF) (getF d yF) = k
      · rw [heatStep_apply_valid hv, if_pos hk.symm,
          List.filter_cons, if_pos hv, List.filter_cons,
          if_pos (by simpa using hk), List.foldl_cons]
      · rw [heatStep_apply_valid hv, if_neg (fun e => hk e.symm),
          List.filter_cons, if_pos hv, List.filter_cons,
          if_neg (by simpa using hk)]
    · have hv2 : heatValid xF yF vF d = false := by simpa using hv
      rw [heatStep_apply_invalid hv2, List.filter_cons,
        if_neg (by simp [hv2])]

theorem stepEntry_foldl_some (xF yF vF : String) (e : HeatEntry)
    (rs : List Rec) :
    rs.foldl (stepEntry xF yF vF) (some e)
      = some { x := e.x
               y := e.y
               value := rs.foldl
                 (fun acc d => nanAdd acc (jsParseFloatV (getF d vF))) e.value
               count := e.count + rs.length
               originalData := e.originalData ++ rs } := by
  induction rs generalizing e with
  | nil => simp
  | cons r t ih =>
    rw [List.foldl_cons]
    have hstep : stepEntry xF yF vF (some e) r
        = some { x := e.x
                 y := e.y
                 value := nanAdd e.value (jsParseFloatV (getF r vF))
                 count := e.count + 1
                 originalData := e.originalData ++ [r] } := rfl
    rw [hstep, ih]
    refine congrArg some ?_
    simp only [HeatEntry.mk.injEq, List.length_cons, true_and]
    refine ⟨?_, by omega, by simp⟩
    rw [List.foldl_cons]

theorem heatMatrix_eq (xF yF vF : String) (data : List Rec) (k : String) :
    heatMatrix xF yF vF data k
      = match keyRecords xF yF vF data k with
        | [] => none
        | r0 :: rest =>
          some { x := getF r0 xF
                 y := getF r0 yF
                 value := nansum
                   ((r0 :: rest).map (fun d => jsParseFloatV (getF d vF)))
                 count := (r0 :: rest).length
                 originalData := r0 :: rest } := by
  unfold heatMatrix
  rw [heatMatrix_foldl]
  show (keyRecords xF yF vF data k).foldl (stepEntry xF yF vF) none = _
  cases hkr : keyRecords xF yF vF data k with
  | nil => rfl
  | cons r0 rest =>
    rw [List.foldl_cons]
    have h0 : stepEntry xF yF vF none r0
        = some { x := getF r0 xF
                 y := getF r0 yF
                 value := nanAdd (some 0) (jsParseFloatV (getF r0 vF))
                 count := 0 + 1
                 originalData := [] ++ [r0] } := rfl
    rw [h0, stepEntry_foldl_some]
    refine congrArg some ?_
    simp only [HeatEntry.mk.injEq, List.length_cons, true_and]
    refine ⟨?_, by omega, by simp⟩
    unfold nansum
    rw [List.map_cons, List.foldl_cons, List.foldl_map]

/-- Claim C10: records whose x or y is null/undefined or whose value is
null/undefined/NaN are inert for the heatmap: filtering them away
changes neither the output cells, nor the category axes, nor any matrix
entry — so such records never enlarge the matrix dimensions nor
contribute to any pair's sum or count. -/
theorem C10_heat_invalid_inert (xF yF vF : String) (data : List Rec) :
    heatCells xF yF vF data
      = heatCells xF yF vF (data.filter (heatValid xF yF vF)) ∧
    heatXCats xF yF vF data
      = heatXCats xF yF vF (data.filter (heatValid xF yF vF)) ∧
    heatYCats xF yF vF data
      = heatYCats xF yF vF (data.filter (heatValid xF yF vF)) ∧
    ∀ k : String, heatMatrix xF yF vF data k
      = heatMatrix xF yF vF (data.filter (heatValid xF yF vF)) k := by
  have hobs : heatObserved xF yF vF (data.filter (heatValid xF yF vF))
      = heatObserved xF yF vF data := by
    unfold heatObserved
    exact List.filter_eq_self.mpr (fun a ha => (List.mem_filter.mp ha).2)
  have hx : heatXCats xF yF vF (data.filter (heatValid xF yF vF))
      = heatXCats xF yF vF data := by
    unfold heatXCats
    rw [hobs]
  have hy : heatYCats xF yF vF (data.filter (heatValid xF yF vF))
      = heatYCats xF yF vF data := by
    unfold heatYCats
    rw [hobs]
  have hmat : ∀ k : String, heatMatrix xF yF vF data k
      = heatMatrix xF yF vF (data.filter (heatValid xF yF vF)) k := by
    intro k
    rw [heatMatrix_eq, heatMatrix_eq]
    have hkr : keyRecords xF yF vF (data.filter (heatValid xF yF vF)) k
        = keyRecords xF yF vF data k := by
      unfold keyRecords
      rw [hobs]
    rw [hkr]
  refine ⟨?_, hx.symm, hy.symm, hmat⟩
  unfold heatCells
  by_cases hd : data = []
  · subst hd
    rfl
  · rw [if_neg hd]
    by_cases hf : data.filter (heatValid xF yF vF) = []
    · rw [if_pos hf]
      have hyempty : heatYCats xF yF vF data = [] := by
        rw [← hy, hf]
        rfl
      rw [hyempty]
      rfl
    · rw [if_neg hf, hx, hy]
      simp only [hmat]

/-- Witness for C10 on concrete data: adding an invalid record (null x)
to the collision-free dataset leaves the cells unchanged. -/
theorem C10_heat_invalid_inert_witness :
    heatCells "x" "y" "v"
        ([("x", vnull), ("y", vstr "b"), ("v", vnum 7)] :: dataC2w)
      = heatCells "x" "y" "v"
        ((([("x", vnull), ("y", vstr "b"), ("v", vnum 7)] :: dataC2w)).filter
          (heatValid "x" "y" "v")) :=
  (C10_heat_invalid_inert "x" "y" "v"
    ([("x", vnull), ("y", vstr "b"), ("v", vnum 7)] :: dataC2w)).1

theorem length_flatMap_const {α β : Type} {l : List α} {f : α → List β}
    {n : ℕ} (h : ∀ a ∈ l, (f a).length = n) :
    (l.flatMap f).length = n * l.length := by
  induction l with
  | nil => simp
  | cons a t ih =>
    rw [List.flatMap_cons, List.length_append,
      ih (fun x hx => h x (List.mem_cons_of_mem a hx)),
      h a (List.mem_cons_self a t), List.length_cons]
    ring

theorem mem_heatXCats {xF yF vF : String} {data : List Rec} {d : Rec}
    (hd : d ∈ heatObserved xF yF vF data) :
    getF d xF ∈ heatXCats xF yF vF data := by
  unfold heatXCats
  exact (ssort_perm _ _).mem_iff.mpr
    (mem_dedupFirst.mpr (List.mem_map_of_mem _ hd))

theorem mem_heatYCats {xF yF vF : String} {data : List Rec} {d : Rec}
    (hd : d ∈ heatObserved xF yF vF data) :
    getF d yF ∈ heatYCats xF yF vF data := by
  unfold heatYCats
  exact (ssort_perm _ _).mem_iff.mpr
    (mem_dedupFirst.mpr (List.mem_map_of_mem _ hd))

/-- Counterexample to C2 as stated: with pipe-containing categories the
string keys `${x}|${y}` collide; in `dataC2` the pair ("a|b", "c") is
never observed, yet its cell carries count 1 and value 5 (the data of
the observed pair ("a", "b|c"), whose key is also "a|b|c") instead of
the claimed value 0, count 0. -/
theorem C2_counterexample :
    (∀ d ∈ dataC2, ¬(getF d "x" = vstr "a|b" ∧ getF d "y" = vstr "c")) ∧
    vstr "a|b" ∈ heatXCats "x" "y" "v" dataC2 ∧
    vstr "c" ∈ heatYCats "x" "y" "v" dataC2 ∧
    (⟨vstr "a|b", vstr "c", some 5, 1,
        [[("x", vstr "a"), ("y", vstr "b|c"), ("v", vnum 5)]]⟩ : MatrixCell)
      ∈ heatCells "x" "y" "v" dataC2 := by
  with_unfolding_all decide

/-- Claim C2 (amended): the heatmap emits exactly
`|distinct observed x| × |distinct observed y|` cells, with both
category axes ascending in string order and duplicate-free; and
whenever the `${x}|${y}` keys are collision-free on the cross product
(in particular whenever categories contain no "|"), the cells are
exactly the full cross product, each observed pair carrying its own
records, their count, and the NaN-propagating parseFloat sum of its
value entries divided by the count, and each unobserved pair carrying
value 0, count 0. -/
theorem C2_heat_matrix_fill (xF yF vF : String) (data : List Rec) :
    (heatCells xF yF vF data).length
      = (heatXCats xF yF vF data).length
        * (heatYCats xF yF vF data).length ∧
    (heatXCats xF yF vF data).Pairwise
      (fun a b => valueToString a ≤ valueToString b) ∧
    (heatYCats xF yF vF data).Pairwise
      (fun a b => valueToString a ≤ valueToString b) ∧
    (heatXCats xF yF vF data).Nodup ∧
    (heatYCats xF yF vF data).Nodup ∧
    ((∀ x1 ∈ heatXCats xF yF vF data, ∀ x2 ∈ heatXCats xF yF vF data,
        ∀ y1 ∈ heatYCats xF yF vF data, ∀ y2 ∈ heatYCats xF yF vF data,
        heatKey x1 y1 = heatKey x2 y2 → x1 = x2 ∧ y1 = y2) →
      heatCells xF yF vF data
        = (heatYCats xF yF vF data).flatMap (fun yv =>
            (heatXCats xF yF vF data).map (fun xv =>
              pairCell xF yF vF data xv yv))) := by
  have htot : ∀ a b : Value,
      (decide (valueToString a ≤ valueToString b)) = true ∨
      (decide (valueToString b ≤ valueToString a)) = true := by
    intro a b
    simp only [decide_eq_true_eq]
    exact le_total _ _
  have htr : ∀ a b c : Value,
      (decide (valueToString a ≤ valueToString b)) = true →
      (decide (valueToString b ≤ valueToString c)) = true →
      (decide (valueToString a ≤ valueToString c)) = true := by
    intro a b c
    simp only [decide_eq_true_eq]
    exact fun h1 h2 => le_trans h1 h2
  refine ⟨?_, ?_, ?_, ?_, ?_, ?_⟩
  · by_cases hd : data = []
    · subst hd
      rfl
    · unfold heatCells
      rw [if_neg hd]
      rw [length_flatMap_const (fun yv _ => List.length_map _ _), Nat.mul_comm]
  · exact (ssort_pairwise htot htr _).imp (fun h => by simpa using h)
  · exact (ssort_pairwise htot htr _).imp (fun h => by simpa using h)
  · exact (ssort_perm _ _).nodup_iff.mpr (nodup_dedupFirst _)
  · exact (ssort_perm _ _).nodup_iff.mpr (nodup_dedupFirst _)
  · intro hinj
    unfold heatCells
    by_cases hd : data = []
    · subst hd
      rw [if_pos rfl]
      rfl
    · rw [if_neg hd]
      rw [List.flatMap_def, List.flatMap_def]
      refine congrArg List.flatten (List.map_congr_left ?_)
      intro yv hyv
      refine List.map_congr_left ?_
      intro xv hxv
      have hkr : keyRecords xF yF vF data (heatKey xv yv)
          = pairRecords xF yF vF data xv yv := by
        unfold keyRecords pairRecords
        refine List.filter_congr ?_
        intro d hdm
        have hdx := mem_heatXCats hdm
        have hdy := mem_heatYCats hdm
        by_cases hxeq : getF d xF = xv
        · by_cases hyeq : getF d yF = yv
          · simp [hxeq, hyeq]
          · have hne : heatKey (getF d xF) (getF d yF) ≠ heatKey xv yv := by
              intro he
              exact hyeq (hinj _ hdx xv hxv _ hdy yv hyv he).2
            simp [hne, hyeq]
        · have hne : heatKey (getF d xF) (getF d yF) ≠ heatKey xv yv := by
            intro he
            exact hxeq (hinj _ hdx xv hxv _ hdy yv hyv he).1
          simp [hne, hxeq]
      rw [heatMatrix_eq, hkr]
      unfold pairCell
      cases hpr : pairRecords xF yF vF data xv yv with
      | nil => rw [if_pos rfl]
      | cons r0 rest => rw [if_neg (by simp)]

/-- Witness for C2: on the concrete pipe-free dataset the keys are
collision-free and the cells are exactly the cross-product
description. -/
theorem C2_heat_matrix_fill_witness :
    heatCells "x" "y" "v" dataC2w
      = (heatYCats "x" "y" "v" dataC2w).flatMap (fun yv =>
          (heatXCats "x" "y" "v" dataC2w).map (fun xv =>
            pairCell "x" "y" "v" dataC2w xv yv)) :=
  (C2_heat_matrix_fill "x" "y" "v" dataC2w).2.2.2.2.2
    (by with_unfolding_all decide)

end Dashboard
